import Mathlib

/-!
Verification of the guided-meditation player state machine and session
query service, as a shallow embedding of `src/app/meditation_player.py`,
`src/app/meditation_service.py` and `src/app/models.py`.

The player (`MeditationPlayer`) is a single-threaded controller whose
mutable fields are `current_step`, `is_playing`, `is_paused`, `timer`
(a handle to a one-shot UI timer) and the UI label texts it maintains.
We embed it as a record `PlayerState` together with one function per
Python method.  The UI framework's timer pool is made explicit: `armed`
lists the (id, delay) pairs of timers that have been created and have
neither fired nor been cancelled; the player's `timer` field stores the
id of the timer object it references, if any.  Two ghost fields carry
instrumentation that changes no behaviour: `dirtyArm` records whether
some arming ever happened while another timer was still pending, and
`completions` counts invocations of `_meditation_complete`.

Field assignments of the Python methods are embedded as named setter
functions (`setStep`, `markPlaying`, ...) so that proofs stay readable;
each setter is a plain record update.
-/

namespace Meditation

/-- Embedding of `MeditationInstruction` (src/app/models.py): the fields the
player and service read.  `duration_seconds` is optional (`None` in Python). -/
structure Instruction where
  step_order : Int
  instruction_text : String
  duration_seconds : Option Int
  is_pause : Bool
deriving DecidableEq, Repr

/-- State of one `MeditationPlayer` view plus the explicit timer pool.
`instructions` is the session's instruction list, fixed after load. -/
structure PlayerState where
  instructions : List Instruction
  current_step : Int
  is_playing : Bool
  is_paused : Bool
  timer : Option Nat
  armed : List (Nat × Int)
  nextTimerId : Nat
  playButtonText : String
  instructionText : String
  timeLabel : String
  stepInfoText : String
  dirtyArm : Bool
  completions : Nat
deriving DecidableEq, Repr

/-- Number of instructions, as an integer (Python `len(self.session.instructions)`). -/
def numInstr (s : PlayerState) : Int :=
  (s.instructions.length : Int)

@[simp] theorem numInstr_def (s : PlayerState) :
    numInstr s = (s.instructions.length : Int) := rfl

/-- Assignment `self.current_step = k`. -/
def setStep (s : PlayerState) (k : Int) : PlayerState :=
  { s with current_step := k }

/-- The firing of a one-shot timer removes it from the pool. -/
def setArmed (s : PlayerState) (l : List (Nat × Int)) : PlayerState :=
  { s with armed := l }

/-- Lines 113-117 of `_start_meditation`: `is_playing = True`,
`is_paused = False`, button text `⏸ Pause`. -/
def markPlaying (s : PlayerState) : PlayerState :=
  { s with is_playing := true, is_paused := false, playButtonText := "⏸ Pause" }

/-- Lines 125-129 of `_pause_meditation`: `is_playing = False`,
`is_paused = True`, button text `▶ Resume`. -/
def markPaused (s : PlayerState) : PlayerState :=
  { s with is_playing := false, is_paused := true, playButtonText := "▶ Resume" }

/-- Lines 212-220 of `_meditation_complete`: stop playing, set the button and
instruction labels (the `ui.notify` call is a transient toast with no state).
The ghost counter `completions` records the invocation. -/
def markComplete (s : PlayerState) : PlayerState :=
  { s with
    is_playing := false
    playButtonText := "✓ Complete"
    instructionText := "🙏 Meditation complete. Take a moment to notice how you feel."
    completions := s.completions + 1 }

/-- Lines 142-147 of `_restart`: reset the index, the flags and the button. -/
def resetFields (s : PlayerState) : PlayerState :=
  { s with
    current_step := 0
    is_playing := false
    is_paused := false
    playButtonText := "▶ Start" }

/-- Embedding of the idiom `if self.timer: self.timer.cancel(); self.timer = None`:
disarm the timer the player references (a no-op on an already fired or
cancelled timer, which is no longer in `armed`) and drop the reference. -/
def cancelTimer (s : PlayerState) : PlayerState :=
  match s.timer with
  | none => s
  | some i => { s with armed := s.armed.filter (fun p => p.1 ≠ i), timer := none }

/-- Embedding of `self.timer = ui.timer(delay, self._advance_to_next_step, once=True)`:
a fresh one-shot timer is armed and the player's `timer` field is overwritten
with the new handle (the source does not cancel the old one here; a still
armed old timer would be orphaned in `armed`).  `dirtyArm` is ghost
instrumentation recording whether any arming ever saw a pending timer. -/
def armTimer (s : PlayerState) (delay : Int) : PlayerState :=
  { s with
    armed := (s.nextTimerId, delay) :: s.armed
    timer := some s.nextTimerId
    nextTimerId := s.nextTimerId + 1
    dirtyArm := s.dirtyArm || !s.armed.isEmpty }

/-- Python's `inst.duration_seconds or 0` (`None` and `0` are falsy, both give `0`). -/
def durOrZero (i : Instruction) : Int :=
  match i.duration_seconds with
  | none => 0
  | some d => d

/-- The sum `sum(inst.duration_seconds or 0 for inst in instructions[:k])` from
`_update_display` (src/app/meditation_player.py line 249).  In every state the
player reaches, `0 ≤ k`, where the Python slice and `List.take k.toNat` agree. -/
def elapsedSeconds (instrs : List Instruction) (k : Int) : Int :=
  ((instrs.take k.toNat).map durOrZero).sum

/-- Python `f"{n:02d}"`: zero-pad to two digits (negative values, which the
player never produces, are printed as-is like Python does at width 2). -/
def formatTwoDigits (n : Int) : String :=
  if 0 ≤ n ∧ n < 10 then "0" ++ toString n else toString n

/-- The `MM:SS` time string built in `_update_display` (lines 250-252);
Python `//` is floor division and `%` returns a nonnegative remainder here,
so we use `Int.fdiv` and `Int.emod`. -/
def formatMMSS (t : Int) : String :=
  formatTwoDigits (Int.fdiv t 60) ++ ":" ++ formatTwoDigits (Int.emod t 60)

/-- Embedding of `_update_display` (lines 226-252): early return when the
instruction list is empty; otherwise refresh the step info text, the
instruction text (only when `current_step` is in range) and the elapsed-time
label.  The progress-bar value (a Python float, line 235) is UI-only state not
read by any logic and is elided from the embedding. -/
def updateDisplay (s : PlayerState) : PlayerState :=
  if s.instructions.isEmpty then s
  else
    { s with
      stepInfoText := "Step " ++ toString (s.current_step + 1) ++ " of " ++ toString (numInstr s)
      instructionText :=
        if s.current_step < numInstr s then
          match s.instructions.get? s.current_step.toNat with
          | some instr => instr.instruction_text
          | none => s.instructionText
        else s.instructionText
      timeLabel := formatMMSS (elapsedSeconds s.instructions s.current_step) }

/-- Embedding of `_meditation_complete` (lines 210-224): stop playing, set the
labels, then cancel the referenced timer. -/
def meditationComplete (s : PlayerState) : PlayerState :=
  cancelTimer (markComplete s)

/-- The tail of `_start_current_step` (lines 191-196): refresh the display and
arm a one-shot timer exactly when
`instruction.duration_seconds and instruction.duration_seconds > 0` is truthy
(`None` and `0` are falsy in Python). -/
def displayAndArm (s : PlayerState) (instr : Instruction) : PlayerState :=
  match instr.duration_seconds with
  | none => updateDisplay s
  | some d => if d ≠ 0 ∧ 0 < d then armTimer (updateDisplay s) d else updateDisplay s

/-- Embedding of `_start_current_step` (lines 182-196): return on an empty
list; past the end, complete; otherwise read the current instruction, refresh
the display, and conditionally arm a timer (`displayAndArm`). -/
def startCurrentStep (s : PlayerState) : PlayerState :=
  if s.instructions.isEmpty then s
  else if numInstr s ≤ s.current_step then meditationComplete s
  else
    match s.instructions.get? s.current_step.toNat with
    | none => s
    | some instr => displayAndArm s instr

/-- Embedding of `_start_meditation` (lines 108-121): return on an empty list;
otherwise mark playing and start the current step when `current_step` is in
range.  The source sets the flags before the range check; the check only reads
`current_step` and the list, which `markPlaying` leaves untouched, so it is
hoisted here. -/
def startMeditation (s : PlayerState) : PlayerState :=
  if s.instructions.isEmpty then s
  else if s.current_step < numInstr s then startCurrentStep (markPlaying s)
  else markPlaying s

/-- Embedding of `_pause_meditation` (lines 123-134): mark paused, then cancel
the referenced timer. -/
def pauseMeditation (s : PlayerState) : PlayerState :=
  cancelTimer (markPaused s)

/-- Embedding of `_toggle_play` (lines 98-106): no-op on an empty list, else
start or pause according to `is_playing`. -/
def togglePlay (s : PlayerState) : PlayerState :=
  if s.instructions.isEmpty then s
  else if !s.is_playing then startMeditation s
  else pauseMeditation s

/-- Embedding of `_restart` (lines 136-149): cancel the timer, reset the index
and the flags, refresh the display. -/
def restart (s : PlayerState) : PlayerState :=
  updateDisplay (resetFields (cancelTimer s))

/-- Embedding of `_previous_step` (lines 151-163): only when `current_step > 0`,
cancel the timer, decrement, refresh the display, and restart the step when
playing.  The source reads `self.is_playing` after the display refresh; no step
of the sequence changes it, so the check is hoisted here. -/
def previousStep (s : PlayerState) : PlayerState :=
  if 0 < s.current_step then
    if s.is_playing then
      startCurrentStep (updateDisplay (setStep (cancelTimer s) (s.current_step - 1)))
    else updateDisplay (setStep (cancelTimer s) (s.current_step - 1))
  else s

/-- Embedding of `_next_step` (lines 165-180): no-op on an empty list; only
when `current_step < len - 1`, cancel the timer, increment, refresh the
display, and restart the step when playing.  As in `previousStep`, the
`is_playing` check is hoisted past steps that do not change it. -/
def nextStep (s : PlayerState) : PlayerState :=
  if s.instructions.isEmpty then s
  else if s.current_step < numInstr s - 1 then
    if s.is_playing then
      startCurrentStep (updateDisplay (setStep (cancelTimer s) (s.current_step + 1)))
    else updateDisplay (setStep (cancelTimer s) (s.current_step + 1))
  else s

/-- Embedding of `_advance_to_next_step` (lines 198-208), the only callback
ever passed to a timer: return unless playing, else increment the index and
either complete (past the end) or start the new step. -/
def advanceToNextStep (s : PlayerState) : PlayerState :=
  if !s.is_playing then s
  else if numInstr s ≤ s.current_step + 1 then
    meditationComplete (setStep s (s.current_step + 1))
  else startCurrentStep (setStep s (s.current_step + 1))

/-- A pending timer elapses: it is removed from the armed pool (one-shot) and
its callback `_advance_to_next_step` runs.  With no pending timer nothing can
fire. -/
def fireTimer (s : PlayerState) : PlayerState :=
  match s.armed with
  | [] => s
  | _ :: rest => advanceToNextStep (setArmed s rest)

/-- The fields set by `MeditationPlayer.__init__` (lines 10-26) and the label
texts created in `create()` (lines 68-78): index 0, not playing, no timer. -/
def initFields (instrs : List Instruction) : PlayerState :=
  { instructions := instrs
    current_step := 0
    is_playing := false
    is_paused := false
    timer := none
    armed := []
    nextTimerId := 0
    playButtonText := "▶ Start"
    instructionText := "Click play to begin your meditation journey"
    timeLabel := "00:00"
    stepInfoText := "Step 0 of 0"
    dirtyArm := false
    completions := 0 }

/-- The player state right after `MeditationPlayer.__init__` plus `create()`
for a successfully loaded session: `initFields` followed by the final
`_update_display()` call of line 96. -/
def initState (instrs : List Instruction) : PlayerState :=
  updateDisplay (initFields instrs)

@[simp] theorem initFields_instructions (instrs : List Instruction) :
    (initFields instrs).instructions = instrs := rfl
@[simp] theorem initFields_current_step (instrs : List Instruction) :
    (initFields instrs).current_step = 0 := rfl
@[simp] theorem initFields_is_playing (instrs : List Instruction) :
    (initFields instrs).is_playing = false := rfl
@[simp] theorem initFields_timer (instrs : List Instruction) :
    (initFields instrs).timer = none := rfl
@[simp] theorem initFields_armed (instrs : List Instruction) :
    (initFields instrs).armed = [] := rfl
@[simp] theorem initFields_dirtyArm (instrs : List Instruction) :
    (initFields instrs).dirtyArm = false := rfl
@[simp] theorem initFields_completions (instrs : List Instruction) :
    (initFields instrs).completions = 0 := rfl
@[simp] theorem initFields_timeLabel (instrs : List Instruction) :
    (initFields instrs).timeLabel = "00:00" := rfl
@[simp] theorem initFields_playButtonText (instrs : List Instruction) :
    (initFields instrs).playButtonText = "▶ Start" := rfl

/-- The events the environment can deliver to a player: the four button
handlers and the elapsing of a pending timer. -/
inductive Event where
  | togglePlay
  | nextStep
  | previousStep
  | restart
  | timerFired
deriving DecidableEq, Repr

/-- Dispatch one event to the player. -/
def applyEvent : Event → PlayerState → PlayerState
  | Event.togglePlay, s => togglePlay s
  | Event.nextStep, s => nextStep s
  | Event.previousStep, s => previousStep s
  | Event.restart, s => restart s
  | Event.timerFired, s => fireTimer s

/-- The states a player over instruction list `instrs` can reach via any
sequence of button presses and timer firings. -/
inductive Reachable (instrs : List Instruction) : PlayerState → Prop where
  | init : Reachable instrs (initState instrs)
  | step (e : Event) {s : PlayerState} (h : Reachable instrs s) :
      Reachable instrs (applyEvent e s)

/-!  ### Projection lemmas for the state helpers  -/

@[simp] theorem setStep_instructions (s : PlayerState) (k : Int) :
    (setStep s k).instructions = s.instructions := rfl
@[simp] theorem setStep_current_step (s : PlayerState) (k : Int) :
    (setStep s k).current_step = k := rfl
@[simp] theorem setStep_is_playing (s : PlayerState) (k : Int) :
    (setStep s k).is_playing = s.is_playing := rfl
@[simp] theorem setStep_timer (s : PlayerState) (k : Int) :
    (setStep s k).timer = s.timer := rfl
@[simp] theorem setStep_armed (s : PlayerState) (k : Int) :
    (setStep s k).armed = s.armed := rfl
@[simp] theorem setStep_dirtyArm (s : PlayerState) (k : Int) :
    (setStep s k).dirtyArm = s.dirtyArm := rfl
@[simp] theorem setStep_completions (s : PlayerState) (k : Int) :
    (setStep s k).completions = s.completions := rfl
@[simp] theorem setStep_timeLabel (s : PlayerState) (k : Int) :
    (setStep s k).timeLabel = s.timeLabel := rfl
@[simp] theorem setStep_playButtonText (s : PlayerState) (k : Int) :
    (setStep s k).playButtonText = s.playButtonText := rfl

@[simp] theorem setArmed_instructions (s : PlayerState) (l : List (Nat × Int)) :
    (setArmed s l).instructions = s.instructions := rfl
@[simp] theorem setArmed_current_step (s : PlayerState) (l : List (Nat × Int)) :
    (setArmed s l).current_step = s.current_step := rfl
@[simp] theorem setArmed_is_playing (s : PlayerState) (l : List (Nat × Int)) :
    (setArmed s l).is_playing = s.is_playing := rfl
@[simp] theorem setArmed_timer (s : PlayerState) (l : List (Nat × Int)) :
    (setArmed s l).timer = s.timer := rfl
@[simp] theorem setArmed_armed (s : PlayerState) (l : List (Nat × Int)) :
    (setArmed s l).armed = l := rfl
@[simp] theorem setArmed_dirtyArm (s : PlayerState) (l : List (Nat × Int)) :
    (setArmed s l).dirtyArm = s.dirtyArm := rfl
@[simp] theorem setArmed_completions (s : PlayerState) (l : List (Nat × Int)) :
    (setArmed s l).completions = s.completions := rfl
@[simp] theorem setArmed_timeLabel (s : PlayerState) (l : List (Nat × Int)) :
    (setArmed s l).timeLabel = s.timeLabel := rfl
@[simp] theorem setArmed_playButtonText (s : PlayerState) (l : List (Nat × Int)) :
    (setArmed s l).playButtonText = s.playButtonText := rfl

@[simp] theorem markPlaying_instructions (s : PlayerState) :
    (markPlaying s).instructions = s.instructions := rfl
@[simp] theorem markPlaying_current_step (s : PlayerState) :
    (markPlaying s).current_step = s.current_step := rfl
@[simp] theorem markPlaying_is_playing (s : PlayerState) :
    (markPlaying s).is_playing = true := rfl
@[simp] theorem markPlaying_timer (s : PlayerState) :
    (markPlaying s).timer = s.timer := rfl
@[simp] theorem markPlaying_armed (s : PlayerState) :
    (markPlaying s).armed = s.armed := rfl
@[simp] theorem markPlaying_dirtyArm (s : PlayerState) :
    (markPlaying s).dirtyArm = s.dirtyArm := rfl
@[simp] theorem markPlaying_completions (s : PlayerState) :
    (markPlaying s).completions = s.completions := rfl
@[simp] theorem markPlaying_timeLabel (s : PlayerState) :
    (markPlaying s).timeLabel = s.timeLabel := rfl
@[simp] theorem markPlaying_playButtonText (s : PlayerState) :
    (markPlaying s).playButtonText = "⏸ Pause" := rfl

@[simp] theorem markPaused_instructions (s : PlayerState) :
    (markPaused s).instructions = s.instructions := rfl
@[simp] theorem markPaused_current_step (s : PlayerState) :
    (markPaused s).current_step = s.current_step := rfl
@[simp] theorem markPaused_is_playing (s : PlayerState) :
    (markPaused s).is_playing = false := rfl
@[simp] theorem markPaused_timer (s : PlayerState) :
    (markPaused s).timer = s.timer := rfl
@[simp] theorem markPaused_armed (s : PlayerState) :
    (markPaused s).armed = s.armed := rfl
@[simp] theorem markPaused_dirtyArm (s : PlayerState) :
    (markPaused s).dirtyArm = s.dirtyArm := rfl
@[simp] theorem markPaused_completions (s : PlayerState) :
    (markPaused s).completions = s.completions := rfl
@[simp] theorem markPaused_timeLabel (s : PlayerState) :
    (markPaused s).timeLabel = s.timeLabel := rfl
@[simp] theorem markPaused_playButtonText (s : PlayerState) :
    (markPaused s).playButtonText = "▶ Resume" := rfl

@[simp] theorem markComplete_instructions (s : PlayerState) :
    (markComplete s).instructions = s.instructions := rfl
@[simp] theorem markComplete_current_step (s : PlayerState) :
    (markComplete s).current_step = s.current_step := rfl
@[simp] theorem markComplete_is_playing (s : PlayerState) :
    (markComplete s).is_playing = false := rfl
@[simp] theorem markComplete_timer (s : PlayerState) :
    (markComplete s).timer = s.timer := rfl
@[simp] theorem markComplete_armed (s : PlayerState) :
    (markComplete s).armed = s.armed := rfl
@[simp] theorem markComplete_dirtyArm (s : PlayerState) :
    (markComplete s).dirtyArm = s.dirtyArm := rfl
@[simp] theorem markComplete_completions (s : PlayerState) :
    (markComplete s).completions = s.completions + 1 := rfl
@[simp] theorem markComplete_timeLabel (s : PlayerState) :
    (markComplete s).timeLabel = s.timeLabel := rfl
@[simp] theorem markComplete_playButtonText (s : PlayerState) :
    (markComplete s).playButtonText = "✓ Complete" := rfl

@[simp] theorem resetFields_instructions (s : PlayerState) :
    (resetFields s).instructions = s.instructions := rfl
@[simp] theorem resetFields_current_step (s : PlayerState) :
    (resetFields s).current_step = 0 := rfl
@[simp] theorem resetFields_is_playing (s : PlayerState) :
    (resetFields s).is_playing = false := rfl
@[simp] theorem resetFields_timer (s : PlayerState) :
    (resetFields s).timer = s.timer := rfl
@[simp] theorem resetFields_armed (s : PlayerState) :
    (resetFields s).armed = s.armed := rfl
@[simp] theorem resetFields_dirtyArm (s : PlayerState) :
    (resetFields s).dirtyArm = s.dirtyArm := rfl
@[simp] theorem resetFields_completions (s : PlayerState) :
    (resetFields s).completions = s.completions := rfl
@[simp] theorem resetFields_playButtonText (s : PlayerState) :
    (resetFields s).playButtonText = "▶ Start" := rfl

@[simp] theorem armTimer_instructions (s : PlayerState) (d : Int) :
    (armTimer s d).instructions = s.instructions := rfl
@[simp] theorem armTimer_current_step (s : PlayerState) (d : Int) :
    (armTimer s d).current_step = s.current_step := rfl
@[simp] theorem armTimer_is_playing (s : PlayerState) (d : Int) :
    (armTimer s d).is_playing = s.is_playing := rfl
@[simp] theorem armTimer_timer (s : PlayerState) (d : Int) :
    (armTimer s d).timer = some s.nextTimerId := rfl
@[simp] theorem armTimer_armed (s : PlayerState) (d : Int) :
    (armTimer s d).armed = (s.nextTimerId, d) :: s.armed := rfl
@[simp] theorem armTimer_dirtyArm (s : PlayerState) (d : Int) :
    (armTimer s d).dirtyArm = (s.dirtyArm || !s.armed.isEmpty) := rfl
@[simp] theorem armTimer_completions (s : PlayerState) (d : Int) :
    (armTimer s d).completions = s.completions := rfl
@[simp] theorem armTimer_timeLabel (s : PlayerState) (d : Int) :
    (armTimer s d).timeLabel = s.timeLabel := rfl
@[simp] theorem armTimer_playButtonText (s : PlayerState) (d : Int) :
    (armTimer s d).playButtonText = s.playButtonText := rfl

@[simp] theorem cancelTimer_instructions (s : PlayerState) :
    (cancelTimer s).instructions = s.instructions := by
  unfold cancelTimer; rcases s.timer with _ | i <;> rfl

@[simp] theorem cancelTimer_current_step (s : PlayerState) :
    (cancelTimer s).current_step = s.current_step := by
  unfold cancelTimer; rcases s.timer with _ | i <;> rfl

@[simp] theorem cancelTimer_is_playing (s : PlayerState) :
    (cancelTimer s).is_playing = s.is_playing := by
  unfold cancelTimer; rcases s.timer with _ | i <;> rfl

@[simp] theorem cancelTimer_is_paused (s : PlayerState) :
    (cancelTimer s).is_paused = s.is_paused := by
  unfold cancelTimer; rcases s.timer with _ | i <;> rfl

@[simp] theorem cancelTimer_dirtyArm (s : PlayerState) :
    (cancelTimer s).dirtyArm = s.dirtyArm := by
  unfold cancelTimer; rcases s.timer with _ | i <;> rfl

@[simp] theorem cancelTimer_completions (s : PlayerState) :
    (cancelTimer s).completions = s.completions := by
  unfold cancelTimer; rcases s.timer with _ | i <;> rfl

@[simp] theorem cancelTimer_timeLabel (s : PlayerState) :
    (cancelTimer s).timeLabel = s.timeLabel := by
  unfold cancelTimer; rcases s.timer with _ | i <;> rfl

@[simp] theorem cancelTimer_playButtonText (s : PlayerState) :
    (cancelTimer s).playButtonText = s.playButtonText := by
  unfold cancelTimer; rcases s.timer with _ | i <;> rfl

@[simp] theorem cancelTimer_timer (s : PlayerState) : (cancelTimer s).timer = none := by
  unfold cancelTimer
  rcases hst : s.timer with _ | i
  · exact hst
  · rfl

/-- Cancelling when every armed timer is the referenced one empties the pool. -/
theorem cancelTimer_armed_of_sub (s : PlayerState)
    (h : ∀ p ∈ s.armed, s.timer = some p.1) : (cancelTimer s).armed = [] := by
  unfold cancelTimer
  rcases hst : s.timer with _ | i
  · rcases hsa : s.armed with _ | ⟨p, rest⟩
    · rfl
    · exact absurd (h p (by simp [hsa])) (by simp [hst])
  · simp only [List.filter_eq_nil_iff]
    intro p hp
    have h2 := h p hp
    rw [hst] at h2
    simp only [Option.some.injEq] at h2
    simp [h2]

@[simp] theorem updateDisplay_instructions (s : PlayerState) :
    (updateDisplay s).instructions = s.instructions := by
  unfold updateDisplay; split <;> rfl

@[simp] theorem updateDisplay_current_step (s : PlayerState) :
    (updateDisplay s).current_step = s.current_step := by
  unfold updateDisplay; split <;> rfl

@[simp] theorem updateDisplay_is_playing (s : PlayerState) :
    (updateDisplay s).is_playing = s.is_playing := by
  unfold updateDisplay; split <;> rfl

@[simp] theorem updateDisplay_is_paused (s : PlayerState) :
    (updateDisplay s).is_paused = s.is_paused := by
  unfold updateDisplay; split <;> rfl

@[simp] theorem updateDisplay_timer (s : PlayerState) :
    (updateDisplay s).timer = s.timer := by
  unfold updateDisplay; split <;> rfl

@[simp] theorem updateDisplay_armed (s : PlayerState) :
    (updateDisplay s).armed = s.armed := by
  unfold updateDisplay; split <;> rfl

@[simp] theorem updateDisplay_dirtyArm (s : PlayerState) :
    (updateDisplay s).dirtyArm = s.dirtyArm := by
  unfold updateDisplay; split <;> rfl

@[simp] theorem updateDisplay_completions (s : PlayerState) :
    (updateDisplay s).completions = s.completions := by
  unfold updateDisplay; split <;> rfl

@[simp] theorem updateDisplay_playButtonText (s : PlayerState) :
    (updateDisplay s).playButtonText = s.playButtonText := by
  unfold updateDisplay; split <;> rfl

@[simp] theorem updateDisplay_nextTimerId (s : PlayerState) :
    (updateDisplay s).nextTimerId = s.nextTimerId := by
  unfold updateDisplay; split <;> rfl

@[simp] theorem cancelTimer_nextTimerId (s : PlayerState) :
    (cancelTimer s).nextTimerId = s.nextTimerId := by
  unfold cancelTimer; rcases s.timer with _ | i <;> rfl

theorem updateDisplay_timeLabel_of_ne (s : PlayerState) (h : s.instructions.isEmpty = false) :
    (updateDisplay s).timeLabel = formatMMSS (elapsedSeconds s.instructions s.current_step) := by
  unfold updateDisplay
  rw [if_neg (by simp [h])]

theorem meditationComplete_armed_of_sub (s : PlayerState)
    (h : ∀ p ∈ s.armed, s.timer = some p.1) : (meditationComplete s).armed = [] := by
  unfold meditationComplete
  exact cancelTimer_armed_of_sub _ h

/-- The state invariant maintained by every event, over the fixed instruction
list `instrs` of the loaded session.  It packages: the instrumentation facts
(no arming ever saw a pending timer; the armed pool never holds two timers),
the linkage between the pool and the player's `timer` field, the index bounds,
the freshness of the elapsed-time label while the index is in range, and the
fact that an out-of-range index certifies a completed play-through. -/
structure Inv (instrs : List Instruction) (s : PlayerState) : Prop where
  instr_eq : s.instructions = instrs
  clean : s.dirtyArm = false
  armed_sub : ∀ p ∈ s.armed, s.timer = some p.1
  armed_len : s.armed.length ≤ 1
  armed_play : s.armed = [] ∨ s.is_playing = true
  armed_step : s.armed = [] ∨ s.current_step < numInstr s
  step_nonneg : 0 ≤ s.current_step
  step_le : s.current_step ≤ numInstr s
  time_ok : s.current_step < numInstr s →
    s.timeLabel = formatMMSS (elapsedSeconds s.instructions s.current_step)
  complete_ok : s.current_step = numInstr s → 0 < numInstr s → 1 ≤ s.completions

/-- A state with an empty armed pool that satisfies the pointwise clauses
satisfies the invariant. -/
theorem inv_mk_clear {instrs : List Instruction} {t : PlayerState}
    (hinstr : t.instructions = instrs) (hdirty : t.dirtyArm = false)
    (harmed : t.armed = [])
    (h0 : 0 ≤ t.current_step) (hle : t.current_step ≤ numInstr t)
    (htime : t.current_step < numInstr t →
      t.timeLabel = formatMMSS (elapsedSeconds t.instructions t.current_step))
    (hcomp : t.current_step = numInstr t → 0 < numInstr t → 1 ≤ t.completions) :
    Inv instrs t :=
  ⟨hinstr, hdirty, by simp [harmed], by simp [harmed], Or.inl harmed, Or.inl harmed,
    h0, hle, htime, hcomp⟩

/-- Applying `updateDisplay` in a clean in-range state keeps the invariant. -/
theorem inv_updateDisplay_clean {instrs : List Instruction} {s : PlayerState}
    (hinstr : s.instructions = instrs) (hdirty : s.dirtyArm = false)
    (harmed : s.armed = []) (hne : s.instructions.isEmpty = false)
    (h0 : 0 ≤ s.current_step) (hlt : s.current_step < numInstr s) :
    Inv instrs (updateDisplay s) := by
  have hlt2 : s.current_step < (s.instructions.length : Int) := by simpa using hlt
  refine inv_mk_clear ?_ ?_ ?_ ?_ ?_ ?_ ?_
  · simpa using hinstr
  · simpa using hdirty
  · simpa using harmed
  · simpa using h0
  · simp only [updateDisplay_current_step, numInstr_def, updateDisplay_instructions]
    omega
  · intro _
    simp only [updateDisplay_current_step, updateDisplay_instructions]
    exact updateDisplay_timeLabel_of_ne s hne
  · intro h1 _
    simp only [updateDisplay_current_step, numInstr_def, updateDisplay_instructions] at h1
    omega

/-- Applying `displayAndArm` in a clean in-range playing state keeps the invariant:
when it arms, the pool was empty, the new timer becomes the referenced one,
the machine is playing and the index is in range. -/
theorem inv_displayAndArm {instrs : List Instruction} {s : PlayerState}
    (instr : Instruction)
    (hinstr : s.instructions = instrs) (hdirty : s.dirtyArm = false)
    (harmed : s.armed = []) (hplay : s.is_playing = true)
    (hne : s.instructions.isEmpty = false)
    (h0 : 0 ≤ s.current_step) (hlt : s.current_step < numInstr s) :
    Inv instrs (displayAndArm s instr) := by
  have hlt2 : s.current_step < (s.instructions.length : Int) := by simpa using hlt
  have hud : Inv instrs (updateDisplay s) :=
    inv_updateDisplay_clean hinstr hdirty harmed hne h0 hlt
  unfold displayAndArm
  rcases hd : instr.duration_seconds with _ | d
  · exact hud
  · show Inv instrs (if d ≠ 0 ∧ 0 < d then armTimer (updateDisplay s) d else updateDisplay s)
    by_cases hpos : d ≠ 0 ∧ 0 < d
    · rw [if_pos hpos]
      refine ⟨?_, ?_, ?_, ?_, ?_, ?_, ?_, ?_, ?_, ?_⟩
      · simpa using hinstr
      · simp [harmed, hdirty]
      · simp [harmed]
      · simp [harmed]
      · right; simpa using hplay
      · right
        simp only [armTimer_current_step, updateDisplay_current_step, numInstr_def,
          armTimer_instructions, updateDisplay_instructions]
        omega
      · simpa using h0
      · simp only [armTimer_current_step, updateDisplay_current_step, numInstr_def,
          armTimer_instructions, updateDisplay_instructions]
        omega
      · intro _
        simp only [armTimer_timeLabel, armTimer_current_step, armTimer_instructions,
          updateDisplay_current_step, updateDisplay_instructions]
        exact updateDisplay_timeLabel_of_ne s hne
      · intro h1 _
        simp only [armTimer_current_step, updateDisplay_current_step, numInstr_def,
          armTimer_instructions, updateDisplay_instructions] at h1
        omega
    · rw [if_neg hpos]
      exact hud

/-- Starting the current step from a clean in-range playing state keeps the
invariant. -/
theorem inv_startCurrentStep {instrs : List Instruction} {s : PlayerState}
    (hinstr : s.instructions = instrs) (hdirty : s.dirtyArm = false)
    (harmed : s.armed = []) (hplay : s.is_playing = true)
    (h0 : 0 ≤ s.current_step) (hlt : s.current_step < numInstr s) :
    Inv instrs (startCurrentStep s) := by
  have hlen : s.current_step.toNat < s.instructions.length := by
    simp only [numInstr_def] at hlt; omega
  have hne : s.instructions.isEmpty = false := by
    rcases hi : s.instructions with _ | _
    · rw [hi] at hlen; simp at hlen
    · simp [hi]
  unfold startCurrentStep
  rw [if_neg (by simp [hne]), if_neg (by omega)]
  rcases hg : s.instructions.get? s.current_step.toNat with _ | instr
  · exact absurd (List.get?_eq_none.mp hg) (by omega)
  · exact inv_displayAndArm instr hinstr hdirty harmed hplay hne h0 hlt
theorem inv_togglePlay {instrs : List Instruction} {s : PlayerState}
    (h : Inv instrs s) : Inv instrs (togglePlay s) := by
  unfold togglePlay
  by_cases hE : s.instructions.isEmpty
  · rw [if_pos hE]; exact h
  · rw [if_neg hE]
    have hle := h.step_le
    simp only [numInstr_def] at hle
    rcases hB : s.is_playing with _ | _
    · -- start path
      rw [if_pos (by rfl)]
      have harmed : s.armed = [] := h.armed_play.resolve_right (by rw [hB]; simp)
      unfold startMeditation
      rw [if_neg hE]
      by_cases hlt : s.current_step < numInstr s
      · rw [if_pos hlt]
        simp only [numInstr_def] at hlt
        refine inv_startCurrentStep ?_ ?_ ?_ ?_ ?_ ?_
        · simpa using h.instr_eq
        · simpa using h.clean
        · simpa using harmed
        · simp
        · simpa using h.step_nonneg
        · simp only [markPlaying_current_step, numInstr_def, markPlaying_instructions]
          omega
      · rw [if_neg hlt]
        simp only [numInstr_def] at hlt
        refine inv_mk_clear ?_ ?_ ?_ ?_ ?_ ?_ ?_
        · simpa using h.instr_eq
        · simpa using h.clean
        · simpa using harmed
        · simpa using h.step_nonneg
        · simp only [markPlaying_current_step, numInstr_def, markPlaying_instructions]
          omega
        · intro hc
          exfalso
          simp only [markPlaying_current_step, numInstr_def, markPlaying_instructions] at hc
          omega
        · intro h1 h2
          simp only [markPlaying_current_step, numInstr_def, markPlaying_instructions] at h1 h2
          have := h.complete_ok (by simpa using h1) (by simpa using h2)
          simpa using this
    · -- pause path
      rw [if_neg (by simp)]
      unfold pauseMeditation
      refine inv_mk_clear ?_ ?_ ?_ ?_ ?_ ?_ ?_
      · simpa using h.instr_eq
      · simpa using h.clean
      · refine cancelTimer_armed_of_sub _ ?_
        simpa using h.armed_sub
      · simpa using h.step_nonneg
      · simp only [cancelTimer_current_step, markPaused_current_step, numInstr_def,
          cancelTimer_instructions, markPaused_instructions]
        omega
      · intro h1
        simp only [cancelTimer_current_step, markPaused_current_step, numInstr_def,
          cancelTimer_instructions, markPaused_instructions] at h1
        have := h.time_ok (by simpa using h1)
        simpa using this
      · intro h1 h2
        simp only [cancelTimer_current_step, markPaused_current_step, numInstr_def,
          cancelTimer_instructions, markPaused_instructions] at h1 h2
        have := h.complete_ok (by simpa using h1) (by simpa using h2)
        simpa using this

theorem inv_restart {instrs : List Instruction} {s : PlayerState}
    (h : Inv instrs s) : Inv instrs (restart s) := by
  unfold restart
  have harmed : (resetFields (cancelTimer s)).armed = [] := by
    simp only [resetFields_armed]
    exact cancelTimer_armed_of_sub _ h.armed_sub
  refine inv_mk_clear ?_ ?_ ?_ ?_ ?_ ?_ ?_
  · simpa using h.instr_eq
  · simpa using h.clean
  · simpa using harmed
  · simp
  · simp only [updateDisplay_current_step, resetFields_current_step, numInstr_def,
      updateDisplay_instructions, resetFields_instructions, cancelTimer_instructions]
    omega
  · intro hlt
    simp only [updateDisplay_current_step, resetFields_current_step, numInstr_def,
      updateDisplay_instructions, resetFields_instructions, cancelTimer_instructions] at hlt
    have hne : (resetFields (cancelTimer s)).instructions.isEmpty = false := by
      simp only [resetFields_instructions, cancelTimer_instructions]
      rcases hi : s.instructions with _ | _
      · rw [hi] at hlt; simp at hlt
      · simp [hi]
    rw [updateDisplay_timeLabel_of_ne _ hne]
    simp
  · intro h1 h2
    simp only [updateDisplay_current_step, resetFields_current_step, numInstr_def,
      updateDisplay_instructions, resetFields_instructions, cancelTimer_instructions] at h1 h2
    omega

theorem inv_nextStep {instrs : List Instruction} {s : PlayerState}
    (h : Inv instrs s) : Inv instrs (nextStep s) := by
  unfold nextStep
  by_cases hE : s.instructions.isEmpty
  · rw [if_pos hE]; exact h
  · rw [if_neg hE]
    by_cases hlt : s.current_step < numInstr s - 1
    · rw [if_pos hlt]
      simp only [numInstr_def] at hlt
      have h0 := h.step_nonneg
      have harmed : (setStep (cancelTimer s) (s.current_step + 1)).armed = [] := by
        simp only [setStep_armed]
        exact cancelTimer_armed_of_sub _ h.armed_sub
      have hne2 : (setStep (cancelTimer s) (s.current_step + 1)).instructions.isEmpty
          = false := by
        simp only [setStep_instructions, cancelTimer_instructions]
        simpa using hE
      rcases hB : s.is_playing with _ | _
      · rw [if_neg (by simp)]
        refine inv_mk_clear ?_ ?_ ?_ ?_ ?_ ?_ ?_
        · simpa using h.instr_eq
        · simpa using h.clean
        · simpa using harmed
        · simp; omega
        · simp only [updateDisplay_current_step, setStep_current_step, numInstr_def,
            updateDisplay_instructions, setStep_instructions, cancelTimer_instructions,
            cancelTimer_current_step]
          omega
        · intro _
          rw [updateDisplay_timeLabel_of_ne _ hne2]
          simp
        · intro h1 _
          simp only [updateDisplay_current_step, setStep_current_step, numInstr_def,
            updateDisplay_instructions, setStep_instructions, cancelTimer_instructions] at h1
          omega
      · rw [if_pos (by rfl)]
        refine inv_startCurrentStep ?_ ?_ ?_ ?_ ?_ ?_
        · simpa using h.instr_eq
        · simpa using h.clean
        · simpa using harmed
        · simpa using hB
        · simp; omega
        · simp only [updateDisplay_current_step, setStep_current_step, numInstr_def,
            updateDisplay_instructions, setStep_instructions, cancelTimer_instructions]
          omega
    · rw [if_neg hlt]; exact h

theorem inv_previousStep {instrs : List Instruction} {s : PlayerState}
    (h : Inv instrs s) : Inv instrs (previousStep s) := by
  unfold previousStep
  by_cases hpos : 0 < s.current_step
  · rw [if_pos hpos]
    have hle := h.step_le
    simp only [numInstr_def] at hle
    have hlen : 0 < s.instructions.length := by omega
    have harmed : (setStep (cancelTimer s) (s.current_step - 1)).armed = [] := by
      simp only [setStep_armed]
      exact cancelTimer_armed_of_sub _ h.armed_sub
    have hne2 : (setStep (cancelTimer s) (s.current_step - 1)).instructions.isEmpty
        = false := by
      simp only [setStep_instructions, cancelTimer_instructions]
      rcases hi : s.instructions with _ | _
      · rw [hi] at hlen; simp at hlen
      · simp [hi]
    rcases hB : s.is_playing with _ | _
    · rw [if_neg (by simp)]
      refine inv_mk_clear ?_ ?_ ?_ ?_ ?_ ?_ ?_
      · simpa using h.instr_eq
      · simpa using h.clean
      · simpa using harmed
      · simp; omega
      · simp only [updateDisplay_current_step, setStep_current_step, numInstr_def,
          updateDisplay_instructions, setStep_instructions, cancelTimer_instructions]
        omega
      · intro _
        rw [updateDisplay_timeLabel_of_ne _ hne2]
        simp
      · intro h1 _
        simp only [updateDisplay_current_step, setStep_current_step, numInstr_def,
          updateDisplay_instructions, setStep_instructions, cancelTimer_instructions] at h1
        omega
    · rw [if_pos (by rfl)]
      refine inv_startCurrentStep ?_ ?_ ?_ ?_ ?_ ?_
      · simpa using h.instr_eq
      · simpa using h.clean
      · simpa using harmed
      · simpa using hB
      · simp; omega
      · simp only [updateDisplay_current_step, setStep_current_step, numInstr_def,
          updateDisplay_instructions, setStep_instructions, cancelTimer_instructions]
        omega
  · rw [if_neg hpos]; exact h

theorem inv_fireTimer {instrs : List Instruction} {s : PlayerState}
    (h : Inv instrs s) : Inv instrs (fireTimer s) := by
  unfold fireTimer
  rcases ha : s.armed with _ | ⟨p, rest⟩
  · exact h
  · have hrest : rest = [] := by
      have := h.armed_len
      rw [ha] at this
      simpa using this
    have hplay : s.is_playing = true := by
      rcases h.armed_play with h1 | h1
      · rw [ha] at h1; cases h1
      · exact h1
    have hstep : s.current_step < (s.instructions.length : Int) := by
      rcases h.armed_step with h1 | h1
      · rw [ha] at h1; cases h1
      · simpa using h1
    have h0 := h.step_nonneg
    subst hrest
    show Inv instrs (advanceToNextStep (setArmed s []))
    unfold advanceToNextStep
    rw [if_neg (by simp [hplay])]
    by_cases hend : numInstr (setArmed s []) ≤ (setArmed s []).current_step + 1
    · rw [if_pos hend]
      simp only [numInstr_def, setArmed_instructions, setArmed_current_step] at hend
      refine inv_mk_clear ?_ ?_ ?_ ?_ ?_ ?_ ?_
      · unfold meditationComplete
        simpa using h.instr_eq
      · unfold meditationComplete
        simpa using h.clean
      · refine meditationComplete_armed_of_sub _ ?_
        simp
      · unfold meditationComplete
        simp only [cancelTimer_current_step, markComplete_current_step,
          setStep_current_step, setArmed_current_step]
        omega
      · unfold meditationComplete
        simp only [cancelTimer_current_step, markComplete_current_step,
          setStep_current_step, setArmed_current_step, numInstr_def,
          cancelTimer_instructions, markComplete_instructions, setStep_instructions,
          setArmed_instructions]
        omega
      · intro h1
        exfalso
        unfold meditationComplete at h1
        simp only [cancelTimer_current_step, markComplete_current_step,
          setStep_current_step, setArmed_current_step, numInstr_def,
          cancelTimer_instructions, markComplete_instructions, setStep_instructions,
          setArmed_instructions] at h1
        omega
      · intro _ _
        unfold meditationComplete
        simp only [cancelTimer_completions, markComplete_completions]
        omega
    · rw [if_neg hend]
      simp only [numInstr_def, setArmed_instructions, setArmed_current_step] at hend
      refine inv_startCurrentStep ?_ ?_ ?_ ?_ ?_ ?_
      · simpa using h.instr_eq
      · simpa using h.clean
      · simp
      · simpa using hplay
      · simp; omega
      · simp only [setStep_current_step, setArmed_current_step, numInstr_def,
          setStep_instructions, setArmed_instructions]
        omega

/-- Every reachable state satisfies the invariant. -/
theorem reachable_inv {instrs : List Instruction} {s : PlayerState}
    (h : Reachable instrs s) : Inv instrs s := by
  induction h with
  | init =>
    unfold initState
    refine inv_mk_clear ?_ ?_ ?_ ?_ ?_ ?_ ?_
    · simp
    · simp
    · simp
    · simp
    · simp
    · intro hlt
      simp only [updateDisplay_current_step, initFields_current_step, numInstr_def,
        updateDisplay_instructions, initFields_instructions] at hlt
      have hne : (initFields instrs).instructions.isEmpty = false := by
        simp only [initFields_instructions]
        rcases hi : instrs with _ | _
        · rw [hi] at hlt; simp at hlt
        · simp [hi]
      rw [updateDisplay_timeLabel_of_ne _ hne]
      simp
    · intro h1 h2
      simp only [updateDisplay_current_step, initFields_current_step, numInstr_def,
        updateDisplay_instructions, initFields_instructions] at h1 h2
      omega
  | step e h ih =>
    cases e with
    | togglePlay => exact inv_togglePlay ih
    | nextStep => exact inv_nextStep ih
    | previousStep => exact inv_previousStep ih
    | restart => exact inv_restart ih
    | timerFired => exact inv_fireTimer ih
/-!  ### Helper characterizations of single transitions  -/

/-- The auto-advance callback body is inert when the machine is not playing
(guard on line 200 of `_advance_to_next_step`). -/
theorem advanceToNextStep_of_not_playing {s : PlayerState} (h : s.is_playing = false) :
    advanceToNextStep s = s := by
  unfold advanceToNextStep
  rw [if_pos (by simp [h])]

/-- Nothing fires when no timer is pending. -/
theorem fireTimer_of_empty {s : PlayerState} (h : s.armed = []) : fireTimer s = s := by
  unfold fireTimer
  rw [h]

/-- The handler `_next_step` is the identity at or beyond the last index. -/
theorem nextStep_of_last {s : PlayerState} (h : ¬ s.current_step < numInstr s - 1) :
    nextStep s = s := by
  unfold nextStep
  by_cases hE : s.instructions.isEmpty
  · rw [if_pos hE]
  · rw [if_neg hE, if_neg h]

/-- The handler `_previous_step` is the identity at index `0` (or below). -/
theorem previousStep_of_first {s : PlayerState} (h : ¬ 0 < s.current_step) :
    previousStep s = s := by
  unfold previousStep
  rw [if_neg h]

/-- The handler `_toggle_play` is the identity on an empty instruction list. -/
theorem togglePlay_of_empty {s : PlayerState} (h : s.instructions = []) :
    togglePlay s = s := by
  unfold togglePlay
  rw [if_pos (by simp [h])]

/-- In range, `_start_current_step` reduces to the display-and-arm tail for the
current instruction. -/
theorem startCurrentStep_eq_displayAndArm {s : PlayerState} {instr : Instruction}
    (h0 : 0 ≤ s.current_step) (hlt : s.current_step < numInstr s)
    (hg : s.instructions.get? s.current_step.toNat = some instr) :
    startCurrentStep s = displayAndArm s instr := by
  have hlt2 : s.current_step < (s.instructions.length : Int) := by simpa using hlt
  have hne : s.instructions.isEmpty = false := by
    rcases hi : s.instructions with _ | _
    · rw [hi] at hlt2; simp at hlt2; omega
    · simp [hi]
  unfold startCurrentStep
  rw [if_neg (by simp [hne]), if_neg (by simp only [numInstr_def]; omega), hg]

theorem displayAndArm_of_pos {s : PlayerState} {instr : Instruction} {d : Int}
    (hd : instr.duration_seconds = some d) (hpos : 0 < d) :
    displayAndArm s instr = armTimer (updateDisplay s) d := by
  unfold displayAndArm
  rw [hd]
  show (if d ≠ 0 ∧ 0 < d then armTimer (updateDisplay s) d else updateDisplay s) = _
  rw [if_pos ⟨by omega, hpos⟩]

theorem displayAndArm_of_none {s : PlayerState} {instr : Instruction}
    (hd : instr.duration_seconds = none) :
    displayAndArm s instr = updateDisplay s := by
  unfold displayAndArm
  rw [hd]

theorem displayAndArm_of_nonpos {s : PlayerState} {instr : Instruction} {d : Int}
    (hd : instr.duration_seconds = some d) (hnp : d ≤ 0) :
    displayAndArm s instr = updateDisplay s := by
  unfold displayAndArm
  rw [hd]
  show (if d ≠ 0 ∧ 0 < d then armTimer (updateDisplay s) d else updateDisplay s) = _
  rw [if_neg (by rintro ⟨h1, h2⟩; omega)]

/-!  ### The session query service (src/app/meditation_service.py)

`MeditationService` reads rows through a SQLModel session created by
`app/database.py`; that module is not part of `src/`, so the storage layer
itself is modelled from the spec while `get_session_by_id` is embedded from
the source.  -/

/-- Embedding of a stored `MeditationSession` row (src/app/models.py): the
fields the query service touches. -/
structure SessionRow where
  id : Nat
  title : String
  description : String
  duration_minutes : Int
  is_active : Bool
deriving DecidableEq, Repr

/-- Embedding of a stored `MeditationInstruction` row (src/app/models.py). -/
structure InstructionRow where
  id : Nat
  session_id : Nat
  step_order : Int
  instruction_text : String
  duration_seconds : Option Int
  is_pause : Bool
deriving DecidableEq, Repr

/-- Modelled from the spec: the Session Store behind the query service
("persisted entities (sessions, ordered instructions ...)", spec §2); the
engine module `app/database.py` is missing from `src/`.  The store is the
lists of stored rows; `session.get(Model, id)` is a lookup by primary key and
`select(...).where(...).order_by("step_order")` is a filter followed by a
stable ascending sort on `step_order` (ties keep storage order, which the
spec leaves unspecified, §3/§9). -/
structure Store where
  sessions : List SessionRow
  instructions : List InstructionRow
deriving DecidableEq, Repr

/-- The `order_by("step_order")` comparison. -/
def leStepOrder (a b : InstructionRow) : Bool :=
  a.step_order ≤ b.step_order

/-- Embedding of `MeditationService.get_session_by_id`
(src/app/meditation_service.py lines 26-45): a `None` id returns `None`
immediately; a missing session returns `None`; otherwise the session is
returned together with its instructions filtered by `session_id` and sorted
ascending by `step_order`.  The function is total: no path raises. -/
def get_session_by_id (db : Store) :
    Option Nat → Option (SessionRow × List InstructionRow)
  | none => none
  | some sid =>
    match db.sessions.find? (fun r => r.id == sid) with
    | none => none
    | some sess =>
      some (sess,
        (db.instructions.filter (fun i => i.session_id == sid)).mergeSort leStepOrder)

theorem get_session_by_id_some (db : Store) (sid : Nat) :
    get_session_by_id db (some sid) =
      match db.sessions.find? (fun r => r.id == sid) with
      | none => none
      | some sess =>
        some (sess,
          (db.instructions.filter (fun i => i.session_id == sid)).mergeSort leStepOrder) :=
  rfl
/-!  ### Concrete play-throughs used as witnesses and counterexamples  -/

/-- A one-step session: 30 seconds of breathing. -/
def stepOne : Instruction := ⟨1, "Breathe in slowly", some 30, false⟩

/-- A second step: 45 seconds. -/
def stepTwo : Instruction := ⟨2, "Hold your breath", some 45, false⟩

def demoOne : List Instruction := [stepOne]

def demoTwo : List Instruction := [stepOne, stepTwo]

/-- Press Play on the one-step session: playing at index 0 with a 30 s timer. -/
def playingOne : PlayerState := togglePlay (initState demoOne)

/-- Then let the timer elapse: the machine completes. -/
def completeOne : PlayerState := fireTimer playingOne

/-- Press Next twice from idle on the two-step session: the second press hits
the last index. -/
def nextTwice : PlayerState := nextStep (nextStep (initState demoTwo))

theorem reachable_playingOne : Reachable demoOne playingOne :=
  Reachable.step Event.togglePlay Reachable.init

theorem reachable_completeOne : Reachable demoOne completeOne :=
  Reachable.step Event.timerFired reachable_playingOne

theorem reachable_nextTwice : Reachable demoTwo nextTwice :=
  Reachable.step Event.nextStep (Reachable.step Event.nextStep Reachable.init)

/-!  ### The claims  -/

/-- C1: for every reachable player state in mode Playing, invoking Pause
cancels the pending timer (so its delay can no longer elapse), and even the
auto-advance callback body, were it still to run, would leave `current_step`
unchanged: Auto-Advance never fires after Pause. -/
theorem C1_pause_blocks_auto_advance {instrs : List Instruction} {s : PlayerState}
    (hreach : Reachable instrs s) (hplay : s.is_playing = true) :
    (pauseMeditation s).armed = [] ∧
    fireTimer (pauseMeditation s) = pauseMeditation s ∧
    (advanceToNextStep (pauseMeditation s)).current_step = s.current_step := by
  have hinv := reachable_inv hreach
  have harm : (pauseMeditation s).armed = [] := by
    unfold pauseMeditation
    exact cancelTimer_armed_of_sub _ (by simpa using hinv.armed_sub)
  refine ⟨harm, fireTimer_of_empty harm, ?_⟩
  rw [advanceToNextStep_of_not_playing (by simp [pauseMeditation])]
  simp [pauseMeditation]

/-- Witness for C1 at a concrete reachable playing state. -/
theorem C1_pause_blocks_auto_advance_witness :
    playingOne.is_playing = true ∧
    ((pauseMeditation playingOne).armed = [] ∧
     fireTimer (pauseMeditation playingOne) = pauseMeditation playingOne ∧
     (advanceToNextStep (pauseMeditation playingOne)).current_step = playingOne.current_step) :=
  ⟨by decide, C1_pause_blocks_auto_advance reachable_playingOne (by decide)⟩

/-- C2: across every sequence of Play/Pause/Next/Previous/Restart calls and
timer firings, at most one timer is pending, and no arming ever took place
while another timer was still pending (the ghost flag `dirtyArm` stays
false). -/
theorem C2_at_most_one_pending_timer {instrs : List Instruction} {s : PlayerState}
    (hreach : Reachable instrs s) :
    s.armed.length ≤ 1 ∧ s.dirtyArm = false :=
  ⟨(reachable_inv hreach).armed_len, (reachable_inv hreach).clean⟩

/-- Witness for C2 at a concrete reachable state with a pending timer. -/
theorem C2_at_most_one_pending_timer_witness :
    playingOne.armed.length ≤ 1 ∧ playingOne.dirtyArm = false :=
  C2_at_most_one_pending_timer reachable_playingOne
/-- C3 counterexample: manual Next cannot reach Complete.  On a two-step
session, pressing Next from idle reaches the last index, and pressing Next
again (the only way to "reach the end via manual Next") is a no-op:
`_meditation_complete` never ran and the machine is not in Complete. -/
theorem C3_counterexample :
    Reachable demoTwo nextTwice ∧
    nextTwice.current_step = numInstr nextTwice - 1 ∧
    nextStep nextTwice = nextTwice ∧
    nextTwice.completions = 0 ∧
    nextTwice.playButtonText ≠ "✓ Complete" :=
  ⟨reachable_nextTwice, by decide, by decide, by decide, by decide⟩

/-- C3 amended: for a non-empty instruction list the end is reached only via
Auto-Advance (manual Next at the last index is a no-op).  When the timer of
the last step fires while Playing, the machine transitions to Complete
exactly once (`completions` grows by exactly one), no timer remains pending,
and no further auto-advance fires from the Complete state. -/
theorem C3_complete_only_by_auto_advance {instrs : List Instruction} {s : PlayerState}
    (hreach : Reachable instrs s) (hplay : s.is_playing = true)
    (hlast : s.current_step = numInstr s - 1) (harm : s.armed ≠ []) :
    (fireTimer s).current_step = numInstr s ∧
    (fireTimer s).completions = s.completions + 1 ∧
    (fireTimer s).playButtonText = "✓ Complete" ∧
    (fireTimer s).armed = [] ∧
    fireTimer (fireTimer s) = fireTimer s ∧
    nextStep s = s := by
  have hinv := reachable_inv hreach
  have h0 := hinv.step_nonneg
  rcases ha : s.armed with _ | ⟨p, rest⟩
  · exact absurd ha harm
  · have hrest : rest = [] := by
      have := hinv.armed_len
      rw [ha] at this
      simpa using this
    subst hrest
    have hfire : fireTimer s = advanceToNextStep (setArmed s []) := by
      unfold fireTimer
      rw [ha]
    have hcond : numInstr (setArmed s []) ≤ (setArmed s []).current_step + 1 := by
      simp only [setArmed_instructions, setArmed_current_step, numInstr_def]
      simp only [numInstr_def] at hlast
      omega
    have hadv : advanceToNextStep (setArmed s []) =
        meditationComplete (setStep (setArmed s []) ((setArmed s []).current_step + 1)) := by
      unfold advanceToNextStep
      rw [if_neg (by simp [hplay]), if_pos hcond]
    have harmempty : (fireTimer s).armed = [] := by
      rw [hfire, hadv]
      refine meditationComplete_armed_of_sub _ ?_
      simp
    refine ⟨?_, ?_, ?_, harmempty, ?_, ?_⟩
    · rw [hfire, hadv]
      unfold meditationComplete
      simp only [cancelTimer_current_step, markComplete_current_step,
        setStep_current_step, setArmed_current_step]
      omega
    · rw [hfire, hadv]
      unfold meditationComplete
      simp
    · rw [hfire, hadv]
      unfold meditationComplete
      simp
    · exact fireTimer_of_empty harmempty
    · exact nextStep_of_last (by omega)

/-- Witness for the amended C3 at the concrete playing state of the one-step
session. -/
theorem C3_complete_only_by_auto_advance_witness :
    playingOne.is_playing = true ∧
    playingOne.current_step = numInstr playingOne - 1 ∧
    playingOne.armed ≠ [] ∧
    ((fireTimer playingOne).current_step = numInstr playingOne ∧
     (fireTimer playingOne).completions = playingOne.completions + 1 ∧
     (fireTimer playingOne).playButtonText = "✓ Complete" ∧
     (fireTimer playingOne).armed = [] ∧
     fireTimer (fireTimer playingOne) = fireTimer playingOne ∧
     nextStep playingOne = playingOne) :=
  ⟨by decide, by decide, by decide,
    C3_complete_only_by_auto_advance reachable_playingOne (by decide) (by decide) (by decide)⟩

/-- C4 counterexample: Complete is not terminal.  After the one-step session
auto-completes, Previous moves `current_index` back (and Play re-enters
Playing), although Restart was never invoked. -/
theorem C4_counterexample :
    Reachable demoOne completeOne ∧
    completeOne.playButtonText = "✓ Complete" ∧
    completeOne.current_step = numInstr completeOne ∧
    completeOne.is_playing = false ∧
    (previousStep completeOne).current_step ≠ completeOne.current_step ∧
    (togglePlay completeOne).is_playing = true :=
  ⟨reachable_completeOne, by decide, by decide, by decide, by decide, by decide⟩

/-- C4 amended: in the Complete state (index one past the end, not playing),
Next and the timer callback are no-ops and no timer is pending; but Previous
decrements the index, toggling Play switches back to Playing at the same
out-of-range index without arming a timer, and Restart resets to index 0. -/
theorem C4_complete_stable_under_next_and_timer {instrs : List Instruction}
    {s : PlayerState} (hreach : Reachable instrs s)
    (hstep : s.current_step = numInstr s) (hplay : s.is_playing = false)
    (hlen : 0 < numInstr s) :
    nextStep s = s ∧
    advanceToNextStep s = s ∧
    fireTimer s = s ∧
    (previousStep s).current_step = s.current_step - 1 ∧
    (togglePlay s).current_step = s.current_step ∧
    (togglePlay s).is_playing = true ∧
    (togglePlay s).armed = s.armed ∧
    (restart s).current_step = 0 ∧
    (restart s).is_playing = false := by
  have hinv := reachable_inv hreach
  have harmed : s.armed = [] := hinv.armed_play.resolve_right (by simp [hplay])
  have hne : s.instructions.isEmpty = false := by
    simp only [numInstr_def] at hlen
    rcases hi : s.instructions with _ | _
    · rw [hi] at hlen; simp at hlen
    · simp [hi]
  have htog : togglePlay s = markPlaying s := by
    unfold togglePlay
    rw [if_neg (by simp [hne]), if_pos (by simp [hplay])]
    unfold startMeditation
    rw [if_neg (by simp [hne]), if_neg (by omega)]
  refine ⟨nextStep_of_last (by omega), advanceToNextStep_of_not_playing hplay,
    fireTimer_of_empty harmed, ?_, ?_, ?_, ?_, ?_, ?_⟩
  · unfold previousStep
    rw [if_pos (by omega), if_neg (by simp [hplay])]
    simp
  · rw [htog]; simp
  · rw [htog]; simp
  · rw [htog]; simp
  · unfold restart; simp
  · unfold restart; simp

/-- Witness for the amended C4 at the concrete completed state. -/
theorem C4_complete_stable_under_next_and_timer_witness :
    completeOne.current_step = numInstr completeOne ∧
    completeOne.is_playing = false ∧
    0 < numInstr completeOne ∧
    (nextStep completeOne = completeOne ∧
     advanceToNextStep completeOne = completeOne ∧
     fireTimer completeOne = completeOne ∧
     (previousStep completeOne).current_step = completeOne.current_step - 1 ∧
     (togglePlay completeOne).current_step = completeOne.current_step ∧
     (togglePlay completeOne).is_playing = true ∧
     (togglePlay completeOne).armed = completeOne.armed ∧
     (restart completeOne).current_step = 0 ∧
     (restart completeOne).is_playing = false) :=
  ⟨by decide, by decide, by decide,
    C4_complete_stable_under_next_and_timer reachable_completeOne
      (by decide) (by decide) (by decide)⟩

/-- C5 counterexample: the displayed elapsed time is stale in the Complete
state.  After the one-step session (30 s) auto-completes, `current_step = 1`
but the time label still shows `00:00`, not the sum `00:30` over indices
`[0, 1)`: the label is not refreshed by `_meditation_complete`. -/
theorem C5_counterexample :
    Reachable demoOne completeOne ∧
    completeOne.current_step = 1 ∧
    completeOne.timeLabel = "00:00" ∧
    formatMMSS (elapsedSeconds completeOne.instructions completeOne.current_step) = "00:30" ∧
    completeOne.timeLabel ≠
      formatMMSS (elapsedSeconds completeOne.instructions completeOne.current_step) :=
  ⟨reachable_completeOne, by decide, by decide, by decide, by decide⟩

/-- The spec's elapsed-time formula, written from its words: the sum of
`duration_seconds` (treating null as 0) over the instructions at indices
`[0, k)`, strictly before the current one. -/
def specElapsedTime (instrs : List Instruction) (k : Nat) : Int :=
  ((instrs.take k).map (fun i => i.duration_seconds.getD 0)).sum

theorem elapsedSeconds_eq_spec (instrs : List Instruction) (k : Int) :
    elapsedSeconds instrs k = specElapsedTime instrs k.toNat := by
  unfold elapsedSeconds specElapsedTime
  have hfun : durOrZero = fun i : Instruction => i.duration_seconds.getD 0 := by
    funext i
    unfold durOrZero
    cases i.duration_seconds <;> rfl
  rw [hfun]

/-- C5 amended: in every reachable state whose index is still in range
(`current_step < len`), the displayed time label equals `MM:SS` of the spec's
sum over `[0, current_step)`; the label goes stale only in the Complete state
(see the counterexample). -/
theorem C5_elapsed_time_display {instrs : List Instruction} {s : PlayerState}
    (hreach : Reachable instrs s) (hlt : s.current_step < numInstr s) :
    s.timeLabel = formatMMSS (specElapsedTime s.instructions s.current_step.toNat) := by
  rw [(reachable_inv hreach).time_ok hlt, elapsedSeconds_eq_spec]

/-- Witness for the amended C5 at the concrete playing state. -/
theorem C5_elapsed_time_display_witness :
    playingOne.current_step < numInstr playingOne ∧
    playingOne.timeLabel =
      formatMMSS (specElapsedTime playingOne.instructions playingOne.current_step.toNat) :=
  ⟨by decide, C5_elapsed_time_display reachable_playingOne (by decide)⟩
/-- C6: when a step is entered (`_start_current_step` on an in-range index), a
timer is armed exactly when the current instruction's `duration_seconds` is
present and strictly positive.  For a null or zero duration nothing is armed,
the index does not move, and — if no timer was already pending — no timer can
ever fire, so the machine stays on the step until a manual transition. -/
theorem C6_timer_iff_positive_duration {s : PlayerState} {instr : Instruction}
    (h0 : 0 ≤ s.current_step) (hlt : s.current_step < numInstr s)
    (hg : s.instructions.get? s.current_step.toNat = some instr) :
    (∀ d : Int, instr.duration_seconds = some d → 0 < d →
      (startCurrentStep s).armed = (s.nextTimerId, d) :: s.armed ∧
      (startCurrentStep s).timer = some s.nextTimerId) ∧
    ((instr.duration_seconds = none ∨ instr.duration_seconds = some 0) →
      (startCurrentStep s).armed = s.armed ∧
      (startCurrentStep s).timer = s.timer ∧
      (startCurrentStep s).current_step = s.current_step ∧
      (s.armed = [] → fireTimer (startCurrentStep s) = startCurrentStep s)) ∧
    ((startCurrentStep s).armed = s.armed ↔
      ¬ ∃ d : Int, instr.duration_seconds = some d ∧ 0 < d) := by
  have hsc := startCurrentStep_eq_displayAndArm h0 hlt hg
  refine ⟨?_, ?_, ?_⟩
  · intro d hd hp
    rw [hsc, displayAndArm_of_pos hd hp]
    exact ⟨by simp, by simp⟩
  · intro hcase
    have heq : displayAndArm s instr = updateDisplay s := by
      rcases hcase with hd | hd
      · exact displayAndArm_of_none hd
      · exact displayAndArm_of_nonpos hd le_rfl
    rw [hsc, heq]
    refine ⟨by simp, by simp, by simp, ?_⟩
    intro ha
    exact fireTimer_of_empty (by simpa using ha)
  · constructor
    · intro heq hex
      rcases hex with ⟨d, hd, hp⟩
      rw [hsc, displayAndArm_of_pos hd hp] at heq
      simp at heq
    · intro hnex
      rcases hd : instr.duration_seconds with _ | d
      · rw [hsc, displayAndArm_of_none hd]
        simp
      · have hnp : d ≤ 0 := by
          by_contra hc
          exact hnex ⟨d, hd, by omega⟩
        rw [hsc, displayAndArm_of_nonpos hd hnp]
        simp

/-- Witness for C6 at the initial state of the one-step session. -/
theorem C6_timer_iff_positive_duration_witness :
    0 ≤ (initState demoOne).current_step ∧
    (initState demoOne).current_step < numInstr (initState demoOne) ∧
    (initState demoOne).instructions.get? (initState demoOne).current_step.toNat
      = some stepOne ∧
    ((startCurrentStep (initState demoOne)).armed =
      ((initState demoOne).nextTimerId, 30) :: (initState demoOne).armed ∧
     (startCurrentStep (initState demoOne)).timer =
      some (initState demoOne).nextTimerId) :=
  ⟨by decide, by decide, by decide,
    (@C6_timer_iff_positive_duration (initState demoOne) stepOne
      (by decide) (by decide) (by decide)).1 30 (by decide) (by decide)⟩

/-- C7: Next at the last index, Previous at index 0 and Play on an empty
instruction list each leave the entire player state unchanged: boundary and
empty-list transitions are no-ops, not errors. -/
theorem C7_boundary_no_ops (s : PlayerState) :
    (s.instructions = [] → togglePlay s = s) ∧
    (s.current_step = numInstr s - 1 → nextStep s = s) ∧
    (s.current_step = 0 → previousStep s = s) := by
  refine ⟨togglePlay_of_empty, ?_, ?_⟩
  · intro h
    exact nextStep_of_last (by omega)
  · intro h
    exact previousStep_of_first (by omega)

/-- Witness for C7: all three boundary no-ops at concrete states. -/
theorem C7_boundary_no_ops_witness :
    togglePlay (initState []) = initState [] ∧
    nextStep (initState demoOne) = initState demoOne ∧
    previousStep (initState demoOne) = initState demoOne :=
  ⟨(C7_boundary_no_ops (initState [])).1 (by decide),
   (C7_boundary_no_ops (initState demoOne)).2.1 (by decide),
   (C7_boundary_no_ops (initState demoOne)).2.2 (by decide)⟩

/-- C8: whenever `get_session_by_id` finds a session, the returned instruction
rows are sorted by `step_order` ascending and are exactly (a permutation of)
the stored rows of that session — insertion order is irrelevant; and the
returned session is the one with the requested id. -/
theorem C8_instructions_sorted {db : Store} {sid : Nat} {sess : SessionRow}
    {rows : List InstructionRow}
    (h : get_session_by_id db (some sid) = some (sess, rows)) :
    List.Pairwise (fun a b => a.step_order ≤ b.step_order) rows ∧
    rows.Perm (db.instructions.filter (fun i => i.session_id == sid)) ∧
    sess.id = sid := by
  rw [get_session_by_id_some] at h
  rcases hf : db.sessions.find? (fun r => r.id == sid) with _ | s0
  · rw [hf] at h; cases h
  · rw [hf] at h
    simp only [Option.some.injEq, Prod.mk.injEq] at h
    obtain ⟨hs, hr⟩ := h
    refine ⟨?_, ?_, ?_⟩
    · have htrans : ∀ a b c : InstructionRow, leStepOrder a b = true →
          leStepOrder b c = true → leStepOrder a c = true := by
        intro a b c h1 h2
        simp only [leStepOrder, decide_eq_true_eq] at h1 h2 ⊢
        omega
      have htotal : ∀ a b : InstructionRow, (leStepOrder a b || leStepOrder b a) = true := by
        intro a b
        simp only [leStepOrder, Bool.or_eq_true, decide_eq_true_eq]
        omega
      have hp := List.sorted_mergeSort htrans htotal
        (db.instructions.filter (fun i => i.session_id == sid))
      rw [hr] at hp
      exact hp.imp (by
        intro a b hab
        simpa [leStepOrder] using hab)
    · rw [← hr]
      exact List.mergeSort_perm _ _
    · have h1 := List.find?_some hf
      rw [hs] at h1
      simpa using h1

/-- The store of the spec's example: one session, instructions inserted with
step orders 3, 1, 2. -/
def rowThird : InstructionRow := ⟨1, 1, 3, "Third instruction", some 30, false⟩

def rowFirst : InstructionRow := ⟨2, 1, 1, "First instruction", some 30, false⟩

def rowSecond : InstructionRow := ⟨3, 1, 2, "Second instruction", some 30, false⟩

def demoStore : Store :=
  ⟨[⟨1, "Ordered Session", "Test session for instruction ordering", 5, true⟩],
   [rowThird, rowFirst, rowSecond]⟩

unseal List.merge List.mergeSort in
/-- Witness for C8: insertion order 3, 1, 2 yields retrieval order 1, 2, 3. -/
theorem C8_instructions_sorted_witness :
    get_session_by_id demoStore (some 1) =
      some (⟨1, "Ordered Session", "Test session for instruction ordering", 5, true⟩,
        [rowFirst, rowSecond, rowThird]) ∧
    (List.Pairwise (fun a b => a.step_order ≤ b.step_order)
        [rowFirst, rowSecond, rowThird] ∧
     [rowFirst, rowSecond, rowThird].Perm
        (demoStore.instructions.filter (fun i => i.session_id == 1)) ∧
     (⟨1, "Ordered Session", "Test session for instruction ordering", 5, true⟩ :
        SessionRow).id = 1) :=
  ⟨by decide, C8_instructions_sorted (by decide)⟩

/-- C9: `get_session_by_id` returns `none` — and in this total embedding can
raise nothing — both on a `None` id and on an id matching no stored session. -/
theorem C9_missing_session_returns_none (db : Store) :
    get_session_by_id db none = none ∧
    ∀ sid : Nat, (∀ r ∈ db.sessions, r.id ≠ sid) →
      get_session_by_id db (some sid) = none := by
  refine ⟨rfl, ?_⟩
  intro sid hmiss
  rw [get_session_by_id_some]
  rcases hf : db.sessions.find? (fun r => r.id == sid) with _ | s0
  · rw [hf]
  · have h1 := List.find?_some hf
    have h2 := List.mem_of_find?_eq_some hf
    simp only [beq_iff_eq] at h1
    exact absurd h1 (hmiss _ h2)

/-- Witness for C9: the nonexistent id 999 of the spec's example. -/
theorem C9_missing_session_returns_none_witness :
    get_session_by_id demoStore none = none ∧
    get_session_by_id demoStore (some 999) = none :=
  ⟨(C9_missing_session_returns_none demoStore).1,
   (C9_missing_session_returns_none demoStore).2 999 (by decide)⟩

/-- C10: in every reachable state, `0 ≤ current_step ≤ len`; for a non-empty
list, `current_step` equals `len` (one past the last valid index) only after
the completion handler has run; and such a state is actually reached — the
one-step play-through ends with `current_step = len` out of range. -/
theorem C10_index_bounds {instrs : List Instruction} {s : PlayerState}
    (hreach : Reachable instrs s) :
    (0 ≤ s.current_step ∧ s.current_step ≤ numInstr s) ∧
    (s.current_step = numInstr s → 0 < numInstr s → 1 ≤ s.completions) ∧
    (∃ t : PlayerState, Reachable demoOne t ∧ t.current_step = numInstr t ∧
      1 ≤ t.completions) := by
  have h := reachable_inv hreach
  exact ⟨⟨h.step_nonneg, h.step_le⟩, h.complete_ok,
    ⟨completeOne, reachable_completeOne, by decide, by decide⟩⟩

/-- Witness for C10 at the concrete completed state. -/
theorem C10_index_bounds_witness :
    (0 ≤ completeOne.current_step ∧ completeOne.current_step ≤ numInstr completeOne) ∧
    (completeOne.current_step = numInstr completeOne → 0 < numInstr completeOne →
      1 ≤ completeOne.completions) ∧
    (∃ t : PlayerState, Reachable demoOne t ∧ t.current_step = numInstr t ∧
      1 ≤ t.completions) :=
  C10_index_bounds reachable_completeOne

end Meditation
